import Mathlib

/-!
# Terraform mixin: output capture and pre-run setup

A shallow embedding of `pkg/terraform/terraform.go`.

The Go methods act on the process (environment variables, working directory,
standard streams) and on external collaborators (the `terraform` binary, the
orchestrator's output directory).  The embedding threads an explicit process
state `Proc` through every method; each call that leaves the program is
recorded as an `Event` in `Proc.trace`, and the answer of the outside world to
such a call is read from a `World`, whose answers may depend on the whole
history of calls made so far.
-/

namespace Terraform

/-! ## Go values -/

/-- A Go byte slice `[]byte`; the `nil` slice is the empty list. -/
abbrev Bytes := List UInt8

/-- The byte of the newline character. -/
def newline : UInt8 := 10

/-- The bytes of an ASCII text, used to write test vectors. -/
def ascii (s : String) : Bytes := s.toList.map (fun c => c.toNat.toUInt8)

/-- A Go `error` value that is not nil.  `leaf` is an error produced outside
this program (by `os/exec`, the file system, `terraform init`), `wrap` is the
result of `errors.Wrap`/`errors.Wrapf` and `errorf` of `fmt.Errorf`. -/
inductive GoError where
  | leaf (msg : String)
  | wrap (cause : GoError) (msg : String)
  | errorf (msg : String)
  deriving DecidableEq, Repr

/-- The method `Error()`: the message of an error.  A wrapped error prints its
own message, a colon and the message of its cause. -/
def GoError.Error : GoError → String
  | .leaf msg => msg
  | .wrap cause msg => msg ++ ": " ++ cause.Error
  | .errorf msg => msg

/-- The error `errors.Wrap(err, msg)` for a non-nil `err`. -/
def errors.Wrap (err : GoError) (msg : String) : GoError := .wrap err msg

/-- The error `errors.Wrapf(err, format, args...)` for a non-nil `err`, with
the formatted message. -/
def errors.Wrapf (err : GoError) (msg : String) : GoError := .wrap err msg

/-- The function `bytes.TrimRight(s, cutset)` for a cutset of one ASCII byte
`c`, which Go computes with
`for len(s) > 0 && s[len(s)-1] == c { s = s[:len(s)-1] }`. -/
def bytes.TrimRight (s : Bytes) (c : UInt8) : Bytes :=
  s.rdropWhile (fun b => b == c)

/-- The function `strings.Join(elems, sep)`. -/
def strings.Join (elems : List String) (sep : String) : String :=
  sep.intercalate elems

/-! ## Data model -/

/-- Modelled from the spec: the type `BackendConfig` of a Step's backend
configuration is declared outside `terraform.go`; it is a blob handed to the
initialization unchanged. -/
abbrev BackendConfig := List (String × String)

/-- Modelled from the spec: the type `Output` is declared outside
`terraform.go`; it has the attribute `Name`. -/
structure Output where
  Name : String
  deriving DecidableEq, Repr

/-- Modelled from the spec: the type `Step` is declared outside
`terraform.go`; it has the attributes `LogLevel`, `BackendConfig`,
`WorkingDir` and the ordered `Outputs`. -/
structure Step where
  LogLevel : String
  BackendConfig : BackendConfig
  WorkingDir : String
  Outputs : List Output
  deriving DecidableEq, Repr

/-- The process-wide configuration `MixinConfig`, with the fields that `New`
fills in. -/
structure MixinConfig where
  WorkingDir : String
  ClientVersion : String
  InitFile : String
  deriving DecidableEq, Repr

/-- The default working directory for Terraform. -/
def DefaultWorkingDir : String := "terraform"

/-- The default version of the terraform cli. -/
def DefaultClientVersion : String := "1.0.4"

/-- The default file used to initialize terraform providers during build. -/
def DefaultInitFile : String := ""

/-- The struct `Mixin`: its configuration and the `Debug` flag of the embedded
context. -/
structure Mixin where
  Debug : Bool
  config : MixinConfig
  deriving DecidableEq, Repr

/-- The constructor `New`: a mixin with the default configuration. -/
def New : Mixin :=
  { Debug := false
    config :=
      { WorkingDir := DefaultWorkingDir
        ClientVersion := DefaultClientVersion
        InitFile := DefaultInitFile } }

/-! ## The outside world -/

/-- A call that leaves the program. -/
inductive Event where
  /-- The call `os.Setenv(key, value)`. -/
  | setenv (key value : String)
  /-- The call `m.Chdir(dir)`. -/
  | chdir (dir : String)
  /-- A line printed on the mixin's error stream. -/
  | stderrLine (line : String)
  /-- A line printed on standard output. -/
  | stdoutLine (line : String)
  /-- The call `m.Init(backendConfig)`. -/
  | init (backendConfig : BackendConfig)
  /-- The call `cmd.Output()` of a command with this path and these
  arguments. -/
  | exec (path : String) (args : List String)
  /-- The call `m.Context.WriteMixinOutputToFile(name, contents)`. -/
  | writeOutput (name : String) (contents : Bytes)
  deriving DecidableEq, Repr

/-- What `cmd.Output()` returns: the bytes the process wrote on its standard
output and the error, if any (a non-zero exit or a failure to start). -/
structure CmdResult where
  stdout : Bytes
  err : Option GoError
  deriving DecidableEq, Repr

/-- The answers of the collaborators.  Every answer may depend on the calls
made before it. -/
structure World where
  /-- The path that `NewCommand` resolves a program name to. -/
  lookPath : String → String
  /-- The outcome of running a command. -/
  output : List Event → String → List String → CmdResult
  /-- The outcome of writing an output file. -/
  writeFile : List Event → String → Bytes → Option GoError
  /-- The working directory that `m.Getwd()` reports. -/
  getwd : List Event → String
  /-- The outcome of `m.Init`. -/
  init : List Event → BackendConfig → Option GoError

/-- The state of the process: its environment variables and the calls it has
made so far, oldest first. -/
structure Proc where
  environ : String → Option String
  trace : List Event

/-- Append one event to the history. -/
def Proc.record (p : Proc) (e : Event) : Proc :=
  { p with trace := p.trace ++ [e] }

/-- The struct `exec.Cmd`, with the fields the mixin reads. -/
structure Cmd where
  Path : String
  Args : List String
  deriving DecidableEq, Repr

/-- The method `m.NewCommand(name, arg...)`: the arguments of the command
start with the program name. -/
def Mixin.NewCommand (_m : Mixin) (w : World) (name : String) (arg : List String) : Cmd :=
  { Path := w.lookPath name, Args := name :: arg }

/-- The method `cmd.Output()`. -/
def Cmd.Output (w : World) (cmd : Cmd) (p : Proc) : CmdResult × Proc :=
  (w.output p.trace cmd.Path cmd.Args, p.record (.exec cmd.Path cmd.Args))

/-- The method `m.Context.WriteMixinOutputToFile(name, contents)`. -/
def Mixin.WriteMixinOutputToFile (_m : Mixin) (w : World) (p : Proc) (name : String) (contents : Bytes) :
    Option GoError × Proc :=
  (w.writeFile p.trace name contents, p.record (.writeOutput name contents))

/-! ## The methods of `terraform.go` -/

/-- The method `getOutput`.  The pair is Go's `([]byte, error)`. -/
def Mixin.getOutput (m : Mixin) (w : World) (p : Proc) (outputName : String) :
    (Bytes × Option GoError) × Proc :=
  let cmd := m.NewCommand w "terraform" ["output", "-raw", outputName]
  let (r, p1) := cmd.Output w p
  let out := bytes.TrimRight r.stdout newline
  match r.err with
  | some err =>
    let prettyCmd := cmd.Path ++ " " ++ strings.Join cmd.Args " "
    (([], some (errors.Wrap err ("couldn't run command " ++ prettyCmd))), p1)
  | none => ((out, none), p1)

/-- The method `handleOutputs`: the loop over the declared outputs, leaving at
the first error. -/
def Mixin.handleOutputs (m : Mixin) (w : World) : List Output → Proc → Option GoError × Proc
  | [], p => (none, p)
  | output :: rest, p =>
    match m.getOutput w p output.Name with
    | ((_, some err), p1) => (some err, p1)
    | ((bytes, none), p1) =>
      match m.WriteMixinOutputToFile w p1 output.Name bytes with
      | (some err, p2) =>
        (some (errors.Wrapf err ("unable to write output '" ++ output.Name ++ "'")), p2)
      | (none, p2) => m.handleOutputs w rest p2

/-- The text holds a NUL byte.  A text in UTF-8 holds the byte 0 exactly where
it holds the character of code 0. -/
def hasNul (s : String) : Bool := s.toList.any (fun c => c.toNat == 0)

/-- The arguments that `syscall.Setenv` rejects with `EINVAL`: an empty key, a
key with `=` or a NUL byte, a value with a NUL byte. -/
def setenvInvalid (key value : String) : Bool :=
  key.toList.isEmpty || key.toList.any (fun c => c == '=' || c.toNat == 0) || hasNul value

/-- The call `os.Setenv(key, value)`: for arguments that the system accepts,
the assignment to the environment of the process and no error; for arguments
that it rejects, an error and no assignment. -/
def os.Setenv (p : Proc) (key value : String) : Option GoError × Proc :=
  if setenvInvalid key value then
    (some (.leaf "setenv: invalid argument"), p.record (.setenv key value))
  else
    (none,
      { environ := fun k => if k = key then some value else p.environ k
        trace := p.trace ++ [.setenv key value] })

/-- The method `m.Chdir(dir)` of the embedded context; it returns nothing. -/
def Mixin.Chdir (_m : Mixin) (p : Proc) (dir : String) : Proc :=
  p.record (.chdir dir)

/-- The method `m.Getwd()` of the embedded context. -/
def Mixin.Getwd (_m : Mixin) (w : World) (p : Proc) : String :=
  w.getwd p.trace

/-- The call `fmt.Fprintln(m.Err, a...)`: the operands separated by spaces,
on one line of the error stream. -/
def Mixin.FprintlnErr (_m : Mixin) (p : Proc) (a : List String) : Proc :=
  p.record (.stderrLine (strings.Join a " "))

/-- The call `fmt.Println(a...)`. -/
def fmt.Println (p : Proc) (a : List String) : Proc :=
  p.record (.stdoutLine (strings.Join a " "))

/-- The error `fmt.Errorf(...)` with this formatted message. -/
def fmt.Errorf (msg : String) : GoError := .errorf msg

/-- The method `m.Init(backendConfig)`, declared outside `terraform.go`: its
outcome is the world's. -/
def Mixin.Init (_m : Mixin) (w : World) (p : Proc) (backendConfig : BackendConfig) :
    Option GoError × Proc :=
  (w.init p.trace backendConfig, p.record (.init backendConfig))

/-- The method `commandPreRun`: the setup tasks applicable for every action. -/
def Mixin.commandPreRun (m : Mixin) (w : World) (step : Step) (p : Proc) :
    Option GoError × Proc :=
  -- the error result of os.Setenv is dropped
  let p1 := if step.LogLevel ≠ "" then (os.Setenv p "TF_LOG" step.LogLevel).2 else p
  -- First, change to specified working dir
  let p2 := m.Chdir p1 m.config.WorkingDir
  let p3 :=
    if m.Debug then m.FprintlnErr p2 ["Terraform working directory is", m.Getwd w p2]
    else p2
  -- Initialize Terraform
  let p4 := fmt.Println p3 ["Initializing Terraform..."]
  match m.Init w p4 step.BackendConfig with
  | (some err, p5) => (some (fmt.Errorf ("could not init terraform, " ++ err.Error)), p5)
  | (none, p5) => (none, p5)

/-! ## Vocabulary of the specification -/

/-- The command `terraform output -raw <name>` that retrieves an output. -/
def retrievalCmd (w : World) (name : String) : Cmd :=
  { Path := w.lookPath "terraform", Args := ["terraform", "output", "-raw", name] }

/-- The event of retrieving an output. -/
def retrievalEvent (w : World) (name : String) : Event :=
  .exec (retrievalCmd w name).Path (retrievalCmd w name).Args

/-- What the retrieval of an output returns after the history `t`. -/
def retrieved (w : World) (t : List Event) (name : String) : CmdResult :=
  w.output t (retrievalCmd w name).Path (retrievalCmd w name).Args

/-- A text contains another one. -/
def Contains (s sub : String) : Prop := ∃ a b, s = a ++ sub ++ b

/-- The byte sequence ends with a newline. -/
def EndsWithNewline (v : Bytes) : Prop := v.getLast? = some newline

instance (v : Bytes) : Decidable (EndsWithNewline v) :=
  inferInstanceAs (Decidable (v.getLast? = some newline))

/-- The names of the artifacts written in a history, with their contents,
oldest first. -/
def written : List Event → List (String × Bytes)
  | [] => []
  | .writeOutput name contents :: t => (name, contents) :: written t
  | _ :: t => written t

/-- The commands run in a history, oldest first. -/
def executed : List Event → List Cmd
  | [] => []
  | .exec path args :: t => ⟨path, args⟩ :: executed t
  | _ :: t => executed t

/-- The events of capturing one output after the history `t` when nothing
fails: the retrieval, then the write of the trimmed value under the name. -/
def captureOne (w : World) (t : List Event) (o : Output) : List Event :=
  [retrievalEvent w o.Name,
   .writeOutput o.Name (bytes.TrimRight (retrieved w t o.Name).stdout newline)]

/-- The events of capturing the outputs in declaration order after the
history `t` when nothing fails. -/
def captured (w : World) : List Output → List Event → List Event
  | [], _ => []
  | o :: rest, t => captureOne w t o ++ captured w rest (t ++ captureOne w t o)

/-- Every retrieval and every write of the outputs succeeds, when they are
captured in declaration order after the history `t`. -/
def AllSucceed (w : World) : List Output → List Event → Prop
  | [], _ => True
  | o :: rest, t =>
    (retrieved w t o.Name).err = none ∧
    w.writeFile (t ++ [retrievalEvent w o.Name]) o.Name
      (bytes.TrimRight (retrieved w t o.Name).stdout newline) = none ∧
    AllSucceed w rest (t ++ captureOne w t o)

/-- The assignments `os.Setenv(key, value)` made in a history, oldest first. -/
def setenvCalls : List Event → List (String × String)
  | [] => []
  | .setenv key value :: t => (key, value) :: setenvCalls t
  | _ :: t => setenvCalls t

/-- The directories changed into in a history, oldest first. -/
def chdirTargets : List Event → List String
  | [] => []
  | .chdir dir :: t => dir :: chdirTargets t
  | _ :: t => chdirTargets t

/-- The backend configurations that initialization was invoked with in a
history, oldest first. -/
def initCalls : List Event → List BackendConfig
  | [] => []
  | .init backendConfig :: t => backendConfig :: initCalls t
  | _ :: t => initCalls t

/-- The assignment of the log level, made when the Step has one. -/
def logLevelEvents (step : Step) : List Event :=
  if step.LogLevel ≠ "" then [.setenv "TF_LOG" step.LogLevel] else []

/-- The diagnostic lines of the pre-run setup after the history `t`: the
resolved working directory, in verbose mode. -/
def debugLines (m : Mixin) (w : World) (t : List Event) : List String :=
  if m.Debug then ["Terraform working directory is " ++ w.getwd t] else []

/-- The events of the pre-run setup that come before initialization, after
the history `t`: environment variable, working directory, diagnostic line,
announcement. -/
def setupEvents (m : Mixin) (w : World) (step : Step) (t : List Event) : List Event :=
  logLevelEvents step ++ [.chdir m.config.WorkingDir] ++
    (debugLines m w (t ++ logLevelEvents step ++ [.chdir m.config.WorkingDir])).map
      Event.stderrLine ++
    [.stdoutLine "Initializing Terraform..."]

/-- The state of the process in which the pre-run setup invokes
initialization, when it starts in `p`: the log level is assigned if the system
accepts it, and the events of the setup are in the history. -/
def stateAtInit (m : Mixin) (w : World) (step : Step) (p : Proc) : Proc :=
  { environ :=
      if step.LogLevel ≠ "" ∧ hasNul step.LogLevel = false then
        fun k => if k = "TF_LOG" then some step.LogLevel else p.environ k
      else p.environ
    trace := p.trace ++ setupEvents m w step p.trace }

/-! ## Test vectors -/

/-- A process that has made no call yet and has an empty environment. -/
def freshProc : Proc := { environ := fun _ => none, trace := [] }

/-- A world in which `terraform output -raw` prints a fixed text for every
name and nothing fails. -/
def printingWorld (text : String) : World :=
  { lookPath := fun n => "/usr/bin/" ++ n
    output := fun _ _ _ => { stdout := ascii text, err := none }
    writeFile := fun _ _ _ => none
    getwd := fun _ => "/cnab/app/terraform"
    init := fun _ _ => none }

/-- A world in which `terraform output -raw` prints `vpc-123` and a newline
for `vpc_id`, `subnet-456` and a newline for `subnet_id`, and fails with some
partial text on standard output for every other name; writes succeed. -/
def scenarioWorld : World :=
  { lookPath := fun n => "/usr/bin/" ++ n
    output := fun _ _ args =>
      if args = ["terraform", "output", "-raw", "vpc_id"] then
        { stdout := ascii "vpc-123\n", err := none }
      else if args = ["terraform", "output", "-raw", "subnet_id"] then
        { stdout := ascii "subnet-456\n", err := none }
      else { stdout := ascii "partial\n", err := some (.leaf "exit status 1") }
    writeFile := fun _ _ _ => none
    getwd := fun _ => "/cnab/app/terraform"
    init := fun _ _ => none }

/-- A world in which every retrieval succeeds and every write fails. -/
def readOnlyWorld : World :=
  { lookPath := fun n => "/usr/bin/" ++ n
    output := fun _ _ _ => { stdout := ascii "vpc-123\n", err := none }
    writeFile := fun _ _ _ => some (.leaf "permission denied")
    getwd := fun _ => "/cnab/app/terraform"
    init := fun _ _ => none }

/-- A world in which initialization fails with the cause `backend error`. -/
def brokenBackendWorld : World :=
  { lookPath := fun n => "/usr/bin/" ++ n
    output := fun _ _ _ => { stdout := [], err := none }
    writeFile := fun _ _ _ => none
    getwd := fun _ => "/cnab/app/terraform"
    init := fun _ _ => some (.leaf "backend error") }

/-- A Step that asks for the log level `DEBUG` and the working directory
`infra`. -/
def debugStep : Step :=
  { LogLevel := "DEBUG", BackendConfig := [("bucket", "state")], WorkingDir := "infra",
    Outputs := [⟨"vpc_id"⟩, ⟨"subnet_id"⟩] }

/-- A Step whose log level holds a NUL byte. -/
def nulStep : Step :=
  { LogLevel := "DE\x00BUG", BackendConfig := [], WorkingDir := "infra", Outputs := [] }

/-- A Step whose log level ends with a NUL byte. -/
def nulTraceStep : Step :=
  { LogLevel := "TRACE\x00", BackendConfig := [("bucket", "state")], WorkingDir := "infra",
    Outputs := [] }

/-- A process that has made no call yet and has `TF_LOG` set to `INFO`. -/
def infoProc : Proc :=
  { environ := fun k => if k = "TF_LOG" then some "INFO" else none, trace := [] }

/-! ## Lemmas -/

theorem trimRight_append_newline (u : Bytes) :
    bytes.TrimRight (u ++ [newline]) newline = bytes.TrimRight u newline := by
  unfold bytes.TrimRight
  exact List.rdropWhile_concat_pos _ _ _ (by simp)

theorem trimRight_of_not_endsWithNewline (v : Bytes) (h : ¬ EndsWithNewline v) :
    bytes.TrimRight v newline = v := by
  unfold bytes.TrimRight
  rw [List.rdropWhile_eq_self_iff]
  intro hl hp
  apply h
  unfold EndsWithNewline
  rw [List.getLast?_eq_getLast _ hl]
  simpa using hp

theorem getOutput_of_success (m : Mixin) (w : World) (p : Proc) (name : String)
    (h : (retrieved w p.trace name).err = none) :
    m.getOutput w p name =
      ((bytes.TrimRight (retrieved w p.trace name).stdout newline, none),
        p.record (retrievalEvent w name)) := by
  unfold retrieved at h
  simp only [Mixin.getOutput, Cmd.Output, Mixin.NewCommand, retrievalCmd] at h ⊢
  rw [h]
  rfl

theorem getOutput_of_failure (m : Mixin) (w : World) (p : Proc) (name : String) (c : GoError)
    (h : (retrieved w p.trace name).err = some c) :
    m.getOutput w p name =
      (([], some (errors.Wrap c ("couldn't run command " ++
          ((retrievalCmd w name).Path ++ " " ++ strings.Join (retrievalCmd w name).Args " ")))),
        p.record (retrievalEvent w name)) := by
  unfold retrieved at h
  simp only [Mixin.getOutput, Cmd.Output, Mixin.NewCommand, retrievalCmd] at h ⊢
  rw [h]
  rfl

theorem prettyCmd_eq (w : World) (name : String) :
    (retrievalCmd w name).Path ++ " " ++ strings.Join (retrievalCmd w name).Args " " =
      w.lookPath "terraform" ++ " terraform output -raw " ++ name := by
  have h : " " ++ "terraform output -raw " = " terraform output -raw " := by decide
  simp only [retrievalCmd, strings.Join, String.intercalate, String.intercalate.go,
    String.append_assoc]
  rw [← h]
  simp only [String.append_assoc]
  rfl

theorem contains_suffix (a s : String) : Contains (a ++ s) s :=
  ⟨a, "", by rw [String.append_empty]⟩

theorem written_append (t u : List Event) : written (t ++ u) = written t ++ written u := by
  induction t with
  | nil => rfl
  | cons e t ih => cases e <;> simp [written, ih]

theorem executed_append (t u : List Event) : executed (t ++ u) = executed t ++ executed u := by
  induction t with
  | nil => rfl
  | cons e t ih => cases e <;> simp [executed, ih]

theorem captured_length (w : World) (outputs : List Output) (t : List Event) :
    (captured w outputs t).length = 2 * outputs.length := by
  induction outputs generalizing t with
  | nil => rfl
  | cons o rest ih => simp [captured, captureOne, ih]; omega

theorem executed_captured (w : World) (outputs : List Output) (t : List Event) :
    executed (captured w outputs t) = outputs.map (fun o => retrievalCmd w o.Name) := by
  induction outputs generalizing t with
  | nil => rfl
  | cons o rest ih => simp [captured, captureOne, retrievalEvent, executed, ih]

theorem written_captured_names (w : World) (outputs : List Output) (t : List Event) :
    (written (captured w outputs t)).map Prod.fst = outputs.map Output.Name := by
  induction outputs generalizing t with
  | nil => rfl
  | cons o rest ih => simp [captured, captureOne, retrievalEvent, written, ih]

theorem handleOutputs_cons_of_success (m : Mixin) (w : World) (o : Output) (rest : List Output)
    (p : Proc) (hr : (retrieved w p.trace o.Name).err = none)
    (hw : w.writeFile (p.trace ++ [retrievalEvent w o.Name]) o.Name
      (bytes.TrimRight (retrieved w p.trace o.Name).stdout newline) = none) :
    m.handleOutputs w (o :: rest) p =
      m.handleOutputs w rest { p with trace := p.trace ++ captureOne w p.trace o } := by
  simp only [Mixin.handleOutputs, getOutput_of_success m w p o.Name hr,
    Mixin.WriteMixinOutputToFile, Proc.record, hw, captureOne, List.append_assoc,
    List.singleton_append]

theorem handleOutputs_cons_of_failed_retrieval (m : Mixin) (w : World) (o : Output)
    (rest : List Output) (p : Proc) (c : GoError)
    (hr : (retrieved w p.trace o.Name).err = some c) :
    m.handleOutputs w (o :: rest) p =
      (some (errors.Wrap c ("couldn't run command " ++
          ((retrievalCmd w o.Name).Path ++ " " ++
            strings.Join (retrievalCmd w o.Name).Args " "))),
        p.record (retrievalEvent w o.Name)) := by
  simp only [Mixin.handleOutputs, getOutput_of_failure m w p o.Name c hr]

theorem handleOutputs_cons_of_failed_write (m : Mixin) (w : World) (o : Output)
    (rest : List Output) (p : Proc) (c : GoError)
    (hr : (retrieved w p.trace o.Name).err = none)
    (hw : w.writeFile (p.trace ++ [retrievalEvent w o.Name]) o.Name
      (bytes.TrimRight (retrieved w p.trace o.Name).stdout newline) = some c) :
    m.handleOutputs w (o :: rest) p =
      (some (errors.Wrapf c ("unable to write output '" ++ o.Name ++ "'")),
        { p with trace := p.trace ++ captureOne w p.trace o }) := by
  simp only [Mixin.handleOutputs, getOutput_of_success m w p o.Name hr,
    Mixin.WriteMixinOutputToFile, Proc.record, hw, captureOne, List.append_assoc,
    List.singleton_append]

theorem handleOutputs_append_of_allSucceed (m : Mixin) (w : World) (pre rest : List Output)
    (p : Proc) (h : AllSucceed w pre p.trace) :
    m.handleOutputs w (pre ++ rest) p =
      m.handleOutputs w rest { p with trace := p.trace ++ captured w pre p.trace } := by
  induction pre generalizing p with
  | nil => simp [captured]
  | cons o pre ih =>
    obtain ⟨hr, hw, hrest⟩ := h
    rw [List.cons_append, handleOutputs_cons_of_success m w o (pre ++ rest) p hr hw,
      ih { p with trace := p.trace ++ captureOne w p.trace o } hrest]
    simp only [captured, List.append_assoc]

theorem handleOutputs_of_allSucceed (m : Mixin) (w : World) (outputs : List Output) (p : Proc)
    (h : AllSucceed w outputs p.trace) :
    m.handleOutputs w outputs p =
      (none, { p with trace := p.trace ++ captured w outputs p.trace }) := by
  have := handleOutputs_append_of_allSucceed m w outputs [] p h
  simpa [Mixin.handleOutputs] using this

theorem setenvCalls_append (t u : List Event) :
    setenvCalls (t ++ u) = setenvCalls t ++ setenvCalls u := by
  induction t with
  | nil => rfl
  | cons e t ih => cases e <;> simp [setenvCalls, ih]

theorem chdirTargets_append (t u : List Event) :
    chdirTargets (t ++ u) = chdirTargets t ++ chdirTargets u := by
  induction t with
  | nil => rfl
  | cons e t ih => cases e <;> simp [chdirTargets, ih]

theorem initCalls_append (t u : List Event) :
    initCalls (t ++ u) = initCalls t ++ initCalls u := by
  induction t with
  | nil => rfl
  | cons e t ih => cases e <;> simp [initCalls, ih]

theorem setenvCalls_stderrLines (lines : List String) :
    setenvCalls (lines.map Event.stderrLine) = [] := by
  induction lines with
  | nil => rfl
  | cons l lines ih => simpa [setenvCalls] using ih

theorem chdirTargets_stderrLines (lines : List String) :
    chdirTargets (lines.map Event.stderrLine) = [] := by
  induction lines with
  | nil => rfl
  | cons l lines ih => simpa [chdirTargets] using ih

theorem initCalls_stderrLines (lines : List String) :
    initCalls (lines.map Event.stderrLine) = [] := by
  induction lines with
  | nil => rfl
  | cons l lines ih => simpa [initCalls] using ih

theorem setenvInvalid_TF_LOG (value : String) :
    setenvInvalid "TF_LOG" value = hasNul value := by
  have h1 : "TF_LOG".toList.isEmpty = false := by decide
  have h2 : "TF_LOG".toList.any (fun c => c == '=' || c.toNat == 0) = false := by decide
  simp only [setenvInvalid, h1, h2, Bool.false_or]

theorem commandPreRun_eq_init (m : Mixin) (w : World) (step : Step) (p : Proc) :
    m.commandPreRun w step p =
      ((m.Init w (stateAtInit m w step p) step.BackendConfig).1.map
          (fun err => fmt.Errorf ("could not init terraform, " ++ err.Error)),
        (m.Init w (stateAtInit m w step p) step.BackendConfig).2) := by
  have hj : strings.Join ["Initializing Terraform..."] " " = "Initializing Terraform..." := rfl
  have hd : ∀ wd : String, strings.Join ["Terraform working directory is", wd] " " =
      "Terraform working directory is " ++ wd := by
    intro wd
    have h : "Terraform working directory is" ++ " " = "Terraform working directory is " := by
      decide
    simp only [strings.Join, String.intercalate, String.intercalate.go]
    rw [← h]
  simp only [Mixin.commandPreRun, Mixin.Init, Mixin.Chdir, Mixin.FprintlnErr, Mixin.Getwd,
    fmt.Println, Proc.record, os.Setenv, setenvInvalid_TF_LOG, stateAtInit, setupEvents,
    logLevelEvents, debugLines, hj, hd]
  by_cases hl : step.LogLevel = "" <;> cases hn : hasNul step.LogLevel <;>
    cases hdbg : m.Debug <;>
    simp only [hl, ne_eq, not_true_eq_false, not_false_eq_true, if_true, if_false,
      List.append_assoc, List.map_nil, List.map_cons, List.nil_append, List.cons_append,
      List.append_nil, Bool.false_eq_true, and_true, and_false, false_and, true_and] <;>
    cases hi : w.init _ step.BackendConfig <;> simp

theorem commandPreRun_trace (m : Mixin) (w : World) (step : Step) (p : Proc) :
    (m.commandPreRun w step p).2.trace =
      p.trace ++ setupEvents m w step p.trace ++ [.init step.BackendConfig] := by
  rw [commandPreRun_eq_init]
  rfl

theorem commandPreRun_environ (m : Mixin) (w : World) (step : Step) (p : Proc) :
    (m.commandPreRun w step p).2.environ = (stateAtInit m w step p).environ := by
  rw [commandPreRun_eq_init]
  rfl

theorem commandPreRun_result (m : Mixin) (w : World) (step : Step) (p : Proc) :
    (m.commandPreRun w step p).1 =
      (w.init (p.trace ++ setupEvents m w step p.trace) step.BackendConfig).map
        (fun err => fmt.Errorf ("could not init terraform, " ++ err.Error)) := by
  rw [commandPreRun_eq_init]
  rfl

/-! ## Claims -/

/-- C1: when the retrieval of an output succeeds with the bytes `v` on standard
output, `getOutput` returns `v` without its last byte if `v` ends in exactly one
newline, `v` itself if `v` does not end in a newline, and no bytes if `v` is a
single newline; that value is what `handleOutputs` then writes under the
output's name. -/
theorem getOutput_trims_trailing_newline (m : Mixin) (w : World) (p : Proc) (name : String)
    (v : Bytes) (h : retrieved w p.trace name = { stdout := v, err := none }) :
    (m.getOutput w p name).1.2 = none ∧
    (∀ u, v = u ++ [newline] → ¬ EndsWithNewline u → (m.getOutput w p name).1.1 = u) ∧
    (¬ EndsWithNewline v → (m.getOutput w p name).1.1 = v) ∧
    (v = [newline] → (m.getOutput w p name).1.1 = []) ∧
    (m.handleOutputs w [⟨name⟩] p).2.trace =
      p.trace ++ [retrievalEvent w name, .writeOutput name (m.getOutput w p name).1.1] := by
  have hs : (retrieved w p.trace name).err = none := by rw [h]
  have hg := getOutput_of_success m w p name hs
  rw [h] at hg
  simp only at hg
  refine ⟨by rw [hg], ?_, ?_, ?_, ?_⟩
  · intro u hv hu
    rw [hg, hv, trimRight_append_newline]
    exact trimRight_of_not_endsWithNewline u hu
  · intro hv
    rw [hg]
    exact trimRight_of_not_endsWithNewline v hv
  · intro hv
    rw [hg, hv]
    rfl
  · simp only [Mixin.handleOutputs, hg, Mixin.WriteMixinOutputToFile, Proc.record]
    cases w.writeFile (p.trace ++ [retrievalEvent w name]) name (bytes.TrimRight v newline) <;>
      simp

/-- C1, at a concrete input: the retrieval prints `vpc-123` and a newline. -/
theorem getOutput_trims_trailing_newline_witness :
    retrieved (printingWorld "vpc-123\n") freshProc.trace "vpc_id" =
        { stdout := ascii "vpc-123\n", err := none } ∧
      (New.getOutput (printingWorld "vpc-123\n") freshProc "vpc_id").1.1 = ascii "vpc-123" :=
  ⟨rfl,
    (getOutput_trims_trailing_newline New (printingWorld "vpc-123\n") freshProc "vpc_id"
      (ascii "vpc-123\n") rfl).2.1 (ascii "vpc-123") (by decide) (by decide)⟩

/-- C2, at the failing input: when the retrieval prints `a` followed by two
newlines, `getOutput` returns `a` alone: both newlines are removed, also the
one that is part of the value. -/
theorem getOutput_strips_every_trailing_newline :
    (New.getOutput (printingWorld "a\n\n") freshProc "x").1 = (ascii "a", none) ∧
      (New.getOutput (printingWorld "a\n\n") freshProc "x").1.1 ≠ ascii "a\n" := by
  decide

/-- C3: when the retrievals and writes of the outputs before the N-th succeed
and the retrieval of the N-th fails, `handleOutputs` returns the error of that
retrieval; the
calls it has made are the retrieval and the write of each earlier output, in
declaration order and with the trimmed values, and then the failed retrieval:
nothing is written for the N-th output and nothing is retrieved or written for
a later one. -/
theorem handleOutputs_stops_at_failed_retrieval (m : Mixin) (w : World)
    (pre : List Output) (o : Output) (post : List Output) (p : Proc) (c : GoError)
    (hpre : AllSucceed w pre p.trace)
    (hfail : (retrieved w (p.trace ++ captured w pre p.trace) o.Name).err = some c) :
    (m.handleOutputs w (pre ++ o :: post) p).1 =
      some (errors.Wrap c ("couldn't run command " ++
        ((retrievalCmd w o.Name).Path ++ " " ++
          strings.Join (retrievalCmd w o.Name).Args " "))) ∧
    (m.handleOutputs w (pre ++ o :: post) p).2.trace =
      p.trace ++ captured w pre p.trace ++ [retrievalEvent w o.Name] ∧
    (m.handleOutputs w (pre ++ o :: post) p).2.environ = p.environ ∧
    written (m.handleOutputs w (pre ++ o :: post) p).2.trace =
      written p.trace ++ written (captured w pre p.trace) ∧
    (written (captured w pre p.trace)).map Prod.fst = pre.map Output.Name ∧
    executed (m.handleOutputs w (pre ++ o :: post) p).2.trace =
      executed p.trace ++ pre.map (fun x => retrievalCmd w x.Name) ++
        [retrievalCmd w o.Name] := by
  have hrun := handleOutputs_append_of_allSucceed m w pre (o :: post) p hpre
  rw [handleOutputs_cons_of_failed_retrieval m w o post _ c hfail] at hrun
  rw [hrun]
  refine ⟨rfl, rfl, rfl, ?_, written_captured_names w pre p.trace, ?_⟩
  · simp [Proc.record, written_append, retrievalEvent, written]
  · simp [Proc.record, executed_append, executed_captured, retrievalEvent, executed]

/-- C3, at a concrete input: `vpc_id` is captured, the retrieval of `missing`
fails, `subnet_id` is never attempted. -/
theorem handleOutputs_stops_at_failed_retrieval_witness :
    AllSucceed scenarioWorld [⟨"vpc_id"⟩] freshProc.trace ∧
      (New.handleOutputs scenarioWorld ([⟨"vpc_id"⟩] ++ ⟨"missing"⟩ :: [⟨"subnet_id"⟩])
        freshProc).2.trace =
        [.exec "/usr/bin/terraform" ["terraform", "output", "-raw", "vpc_id"],
         .writeOutput "vpc_id" (ascii "vpc-123"),
         .exec "/usr/bin/terraform" ["terraform", "output", "-raw", "missing"]] :=
  ⟨⟨rfl, rfl, trivial⟩,
    (handleOutputs_stops_at_failed_retrieval New scenarioWorld [⟨"vpc_id"⟩] ⟨"missing"⟩
      [⟨"subnet_id"⟩] freshProc (.leaf "exit status 1") ⟨rfl, rfl, trivial⟩ rfl).2.1⟩

/-- C4: when every retrieval and every write succeeds, `handleOutputs` returns
no error and its calls are one retrieval followed by one write per output, in
declaration order, each write under the output's name with the trimmed
standard output of `terraform output -raw <name>`; for no outputs it makes no
call; for `vpc_id` and `subnet_id` printing `vpc-123` and `subnet-456`, each
with a newline, the artifacts are `vpc-123` and `subnet-456`. -/
theorem handleOutputs_captures_every_output :
    (∀ (m : Mixin) (w : World) (outputs : List Output) (p : Proc),
      AllSucceed w outputs p.trace →
        m.handleOutputs w outputs p =
          (none, { p with trace := p.trace ++ captured w outputs p.trace }) ∧
        (captured w outputs p.trace).length = 2 * outputs.length ∧
        executed (captured w outputs p.trace) =
          outputs.map (fun o => retrievalCmd w o.Name) ∧
        (written (captured w outputs p.trace)).map Prod.fst = outputs.map Output.Name) ∧
    (∀ (m : Mixin) (w : World) (p : Proc), m.handleOutputs w [] p = (none, p)) ∧
    (∀ (m : Mixin) (w : World) (p : Proc),
      (∀ t, retrieved w t "vpc_id" = { stdout := ascii "vpc-123\n", err := none }) →
      (∀ t, retrieved w t "subnet_id" = { stdout := ascii "subnet-456\n", err := none }) →
      (∀ t name v, w.writeFile t name v = none) →
        m.handleOutputs w [⟨"vpc_id"⟩, ⟨"subnet_id"⟩] p =
          (none, { p with trace := p.trace ++
            [retrievalEvent w "vpc_id", .writeOutput "vpc_id" (ascii "vpc-123"),
             retrievalEvent w "subnet_id", .writeOutput "subnet_id" (ascii "subnet-456")] })) := by
  refine ⟨?_, fun _ _ _ => rfl, ?_⟩
  · intro m w outputs p h
    exact ⟨handleOutputs_of_allSucceed m w outputs p h, captured_length w outputs p.trace,
      executed_captured w outputs p.trace, written_captured_names w outputs p.trace⟩
  · intro m w p hv hs hw
    have hall : AllSucceed w [⟨"vpc_id"⟩, ⟨"subnet_id"⟩] p.trace := by
      simp [AllSucceed, hv, hs, hw]
    rw [handleOutputs_of_allSucceed m w _ p hall]
    have h1 : bytes.TrimRight (ascii "vpc-123\n") newline = ascii "vpc-123" := by decide
    have h2 : bytes.TrimRight (ascii "subnet-456\n") newline = ascii "subnet-456" := by decide
    simp [captured, captureOne, hv, hs, h1, h2]

/-- C4, at a concrete input: the scenario of `vpc_id` and `subnet_id`. -/
theorem handleOutputs_captures_every_output_witness :
    AllSucceed scenarioWorld [⟨"vpc_id"⟩, ⟨"subnet_id"⟩] freshProc.trace ∧
      New.handleOutputs scenarioWorld [⟨"vpc_id"⟩, ⟨"subnet_id"⟩] freshProc =
        (none, { freshProc with trace := freshProc.trace ++
          [.exec "/usr/bin/terraform" ["terraform", "output", "-raw", "vpc_id"],
           .writeOutput "vpc_id" (ascii "vpc-123"),
           .exec "/usr/bin/terraform" ["terraform", "output", "-raw", "subnet_id"],
           .writeOutput "subnet_id" (ascii "subnet-456")] }) :=
  ⟨⟨rfl, rfl, rfl, rfl, trivial⟩,
    handleOutputs_captures_every_output.2.2 New scenarioWorld freshProc
      (fun _ => rfl) (fun _ => rfl) (fun _ _ _ => rfl)⟩

/-- C5: whenever `handleOutputs` fails, the outputs before the failing one were
captured and either the retrieval of the failing output failed with a cause or
its write did; in both cases the error wraps the cause, and its message
contains the name of the failing output and the message of the cause; for a
failed write the message is `unable to write output '<Name>'`, a colon and the
message of the cause. -/
theorem handleOutputs_error_names_failing_output (m : Mixin) (w : World)
    (outputs : List Output) (p : Proc) (e : GoError)
    (h : (m.handleOutputs w outputs p).1 = some e) :
    ∃ pre o post c, outputs = pre ++ o :: post ∧ AllSucceed w pre p.trace ∧
      (((retrieved w (p.trace ++ captured w pre p.trace) o.Name).err = some c ∧
          e = errors.Wrap c ("couldn't run command " ++
            ((retrievalCmd w o.Name).Path ++ " " ++
              strings.Join (retrievalCmd w o.Name).Args " "))) ∨
        ((retrieved w (p.trace ++ captured w pre p.trace) o.Name).err = none ∧
          w.writeFile (p.trace ++ captured w pre p.trace ++ [retrievalEvent w o.Name]) o.Name
            (bytes.TrimRight
              (retrieved w (p.trace ++ captured w pre p.trace) o.Name).stdout newline) =
            some c ∧
          e = errors.Wrapf c ("unable to write output '" ++ o.Name ++ "'") ∧
          e.Error = "unable to write output '" ++ o.Name ++ "'" ++ ": " ++ c.Error)) ∧
      Contains e.Error o.Name ∧ Contains e.Error c.Error := by
  induction outputs generalizing p with
  | nil => simp [Mixin.handleOutputs] at h
  | cons o rest ih =>
    cases hr : (retrieved w p.trace o.Name).err with
    | some c =>
      rw [handleOutputs_cons_of_failed_retrieval m w o rest p c hr] at h
      simp only [Option.some.injEq] at h
      subst h
      refine ⟨[], o, rest, c, rfl, trivial, Or.inl ⟨by simpa [captured] using hr, rfl⟩, ?_, ?_⟩
      · rw [errors.Wrap, GoError.Error, prettyCmd_eq]
        exact ⟨"couldn't run command " ++ (w.lookPath "terraform" ++ " terraform output -raw "),
          ": " ++ c.Error, by simp only [String.append_assoc]⟩
      · rw [errors.Wrap, GoError.Error]
        exact contains_suffix _ _
    | none =>
      cases hw : w.writeFile (p.trace ++ [retrievalEvent w o.Name]) o.Name
          (bytes.TrimRight (retrieved w p.trace o.Name).stdout newline) with
      | some c =>
        rw [handleOutputs_cons_of_failed_write m w o rest p c hr hw] at h
        simp only [Option.some.injEq] at h
        subst h
        refine ⟨[], o, rest, c, rfl, trivial,
          Or.inr ⟨by simpa [captured] using hr, by simpa [captured] using hw, rfl, rfl⟩, ?_, ?_⟩
        · rw [errors.Wrapf, GoError.Error]
          exact ⟨"unable to write output '", "'" ++ (": " ++ c.Error),
            by simp only [String.append_assoc]⟩
        · rw [errors.Wrapf, GoError.Error]
          exact contains_suffix _ _
      | none =>
        rw [handleOutputs_cons_of_success m w o rest p hr hw] at h
        obtain ⟨pre, o2, post, c, hsplit, hall, hcase, hname, hcause⟩ := ih _ h
        refine ⟨o :: pre, o2, post, c, by rw [hsplit]; rfl, ⟨hr, hw, hall⟩, ?_, hname, hcause⟩
        simpa only [captured, List.append_assoc] using hcase

/-- C5, at a concrete input: the write of `vpc_id` fails. -/
theorem handleOutputs_error_names_failing_output_witness :
    (New.handleOutputs readOnlyWorld [⟨"vpc_id"⟩] freshProc).1 =
        some (.wrap (.leaf "permission denied") "unable to write output 'vpc_id'") ∧
      ∃ (pre : List Output) (o : Output) (post : List Output) (c : GoError),
        [(⟨"vpc_id"⟩ : Output)] = pre ++ o :: post ∧
        Contains
          (GoError.wrap (.leaf "permission denied") "unable to write output 'vpc_id'").Error
          o.Name ∧
        Contains
          (GoError.wrap (.leaf "permission denied") "unable to write output 'vpc_id'").Error
          c.Error :=
  ⟨rfl,
    let ⟨pre, o, post, c, hsplit, _, _, hname, hcause⟩ :=
      handleOutputs_error_names_failing_output New readOnlyWorld [⟨"vpc_id"⟩] freshProc
        (.wrap (.leaf "permission denied") "unable to write output 'vpc_id'") rfl
    ⟨pre, o, post, c, hsplit, hname, hcause⟩⟩

/-- C6: when the process of `terraform output -raw <name>` fails (a non-zero
exit or a failure to start) with a cause, `getOutput` returns no bytes, whatever
the process wrote on standard output, and an error that wraps the cause with
the message `couldn't run command`, the path of the command and its arguments
joined with single spaces; when the process succeeds it returns no error. -/
theorem getOutput_error_embeds_command_line (m : Mixin) (w : World) (p : Proc)
    (name : String) :
    (∀ c, (retrieved w p.trace name).err = some c →
      (m.getOutput w p name).1.1 = [] ∧
      (m.getOutput w p name).1.2 =
        some (errors.Wrap c ("couldn't run command " ++
          ((m.NewCommand w "terraform" ["output", "-raw", name]).Path ++ " " ++
            strings.Join (m.NewCommand w "terraform" ["output", "-raw", name]).Args " "))) ∧
      (∃ e, (m.getOutput w p name).1.2 = some e ∧
        e.Error = "couldn't run command " ++
          (w.lookPath "terraform" ++ " terraform output -raw " ++ name) ++ ": " ++ c.Error ∧
        Contains e.Error
          (w.lookPath "terraform" ++ " " ++
            strings.Join ["terraform", "output", "-raw", name] " ") ∧
        Contains e.Error c.Error)) ∧
    ((retrieved w p.trace name).err = none → (m.getOutput w p name).1.2 = none) := by
  constructor
  · intro c hc
    rw [getOutput_of_failure m w p name c hc]
    refine ⟨rfl, rfl, _, rfl, ?_, ?_, ?_⟩
    · rw [errors.Wrap, GoError.Error, prettyCmd_eq]
    · rw [errors.Wrap, GoError.Error]
      exact ⟨"couldn't run command ", ": " ++ c.Error, by
        simp only [retrievalCmd, String.append_assoc]⟩
    · rw [errors.Wrap, GoError.Error]
      exact contains_suffix _ _
  · intro hn
    rw [getOutput_of_success m w p name hn]

/-- C6, at a concrete input: the retrieval of `missing` exits with status 1
after printing some text. -/
theorem getOutput_error_embeds_command_line_witness :
    (retrieved scenarioWorld freshProc.trace "missing").err = some (.leaf "exit status 1") ∧
      (retrieved scenarioWorld freshProc.trace "missing").stdout ≠ [] ∧
      (New.getOutput scenarioWorld freshProc "missing").1.1 = [] :=
  ⟨rfl, by decide,
    ((getOutput_error_embeds_command_line New scenarioWorld freshProc "missing").1
      (.leaf "exit status 1") rfl).1⟩

/-- C7, as stated, fails: for a `LogLevel` that is not empty and holds a NUL
byte, `os.Setenv` rejects the value, `commandPreRun` drops the error, and
`TF_LOG` is not the Step's `LogLevel` afterwards (here it stays absent). -/
theorem commandPreRun_TF_LOG_unset_for_nul :
    nulStep.LogLevel ≠ "" ∧
      (New.commandPreRun scenarioWorld nulStep freshProc).2.environ "TF_LOG" ≠
        some nulStep.LogLevel ∧
      (New.commandPreRun scenarioWorld nulStep freshProc).2.environ "TF_LOG" = none := by
  decide

/-- C7, amended: for a Step whose `LogLevel` holds no NUL byte, `commandPreRun`
assigns `LogLevel` to `TF_LOG`, before initialization is invoked, if and only if
`LogLevel` is not empty (`DEBUG` gives `TF_LOG = DEBUG`); when `LogLevel` is
empty the environment is the one before the call and no assignment is made; no
other variable changes in either case. -/
theorem commandPreRun_sets_TF_LOG (m : Mixin) (w : World) (step : Step) (p : Proc)
    (hnul : hasNul step.LogLevel = false) :
    (step.LogLevel ≠ "" →
      (m.commandPreRun w step p).2.environ "TF_LOG" = some step.LogLevel ∧
      ∃ mid, (m.commandPreRun w step p).2.trace =
          p.trace ++ [.setenv "TF_LOG" step.LogLevel] ++ mid ++ [.init step.BackendConfig] ∧
        setenvCalls mid = [] ∧ initCalls mid = []) ∧
    (step.LogLevel = "" →
      (m.commandPreRun w step p).2.environ = p.environ ∧
      setenvCalls (m.commandPreRun w step p).2.trace = setenvCalls p.trace) ∧
    (step.LogLevel = "DEBUG" →
      (m.commandPreRun w step p).2.environ "TF_LOG" = some "DEBUG") ∧
    (setenvCalls (m.commandPreRun w step p).2.trace =
        setenvCalls p.trace ++ [("TF_LOG", step.LogLevel)] ↔ step.LogLevel ≠ "") ∧
    (∀ k, k ≠ "TF_LOG" → (m.commandPreRun w step p).2.environ k = p.environ k) := by
  have hset : step.LogLevel ≠ "" →
      (m.commandPreRun w step p).2.environ "TF_LOG" = some step.LogLevel := by
    intro hl
    rw [commandPreRun_environ]
    simp [stateAtInit, hl, hnul]
  have hempty : step.LogLevel = "" → (m.commandPreRun w step p).2.environ = p.environ := by
    intro hl
    rw [commandPreRun_environ]
    simp [stateAtInit, hl]
  have hcalls : setenvCalls (m.commandPreRun w step p).2.trace =
      setenvCalls p.trace ++ setenvCalls (logLevelEvents step) := by
    rw [commandPreRun_trace]
    simp [setupEvents, setenvCalls_append, setenvCalls_stderrLines, setenvCalls]
  refine ⟨fun hl => ⟨hset hl, ?_⟩, fun hl => ⟨hempty hl, ?_⟩, fun hl => ?_,
    ⟨fun h => ?_, fun hl => ?_⟩, fun k hk => ?_⟩
  · refine ⟨[.chdir m.config.WorkingDir] ++
      (debugLines m w (p.trace ++ logLevelEvents step ++ [.chdir m.config.WorkingDir])).map
        Event.stderrLine ++ [.stdoutLine "Initializing Terraform..."], ?_, ?_, ?_⟩
    · rw [commandPreRun_trace]
      simp [setupEvents, logLevelEvents, hl]
    · simp [setenvCalls_append, setenvCalls_stderrLines, setenvCalls]
    · simp [initCalls_append, initCalls_stderrLines, initCalls]
  · rw [hcalls]
    simp [logLevelEvents, hl, setenvCalls]
  · have := hset (by rw [hl]; decide)
    rwa [hl] at this
  · intro hl
    rw [hcalls] at h
    simp [logLevelEvents, hl, setenvCalls] at h
  · rw [hcalls]
    simp [logLevelEvents, hl, setenvCalls]
  · rw [commandPreRun_environ]
    by_cases hl : step.LogLevel = "" <;> simp [stateAtInit, hl, hk, hnul]

/-- C7, amended, at a concrete input: a Step with the log level `DEBUG`. -/
theorem commandPreRun_sets_TF_LOG_witness :
    hasNul debugStep.LogLevel = false ∧ debugStep.LogLevel ≠ "" ∧
      freshProc.environ "TF_LOG" = none ∧
      (New.commandPreRun scenarioWorld debugStep freshProc).2.environ "TF_LOG" =
        some "DEBUG" :=
  ⟨by decide, by decide, rfl,
    ((commandPreRun_sets_TF_LOG New scenarioWorld debugStep freshProc (by decide)).1
      (by decide)).1⟩

/-- C8: when the initialization that `commandPreRun` invokes fails with a
cause, `commandPreRun` returns an error whose message is `could not init
terraform`, a comma and the message of the cause; when the initialization
succeeds, `commandPreRun` returns no error. -/
theorem commandPreRun_init_failure_is_fatal (m : Mixin) (w : World) (step : Step)
    (p : Proc) :
    (∀ c, w.init (p.trace ++ setupEvents m w step p.trace) step.BackendConfig = some c →
      (m.commandPreRun w step p).1 =
        some (fmt.Errorf ("could not init terraform, " ++ c.Error)) ∧
      ∃ e, (m.commandPreRun w step p).1 = some e ∧
        e.Error = "could not init terraform, " ++ c.Error ∧
        Contains e.Error "could not init terraform" ∧ Contains e.Error c.Error) ∧
    (w.init (p.trace ++ setupEvents m w step p.trace) step.BackendConfig = none →
      (m.commandPreRun w step p).1 = none) := by
  constructor
  · intro c hc
    rw [commandPreRun_result, hc]
    refine ⟨rfl, _, rfl, rfl, ?_, ?_⟩
    · show Contains ("could not init terraform, " ++ c.Error) "could not init terraform"
      have h : "could not init terraform" ++ ", " = "could not init terraform, " := by decide
      exact ⟨"", ", " ++ c.Error, by rw [String.empty_append, ← String.append_assoc, h]⟩
    · show Contains ("could not init terraform, " ++ c.Error) c.Error
      exact contains_suffix _ _
  · intro hn
    rw [commandPreRun_result, hn]
    rfl

/-- C8, at a concrete input: initialization fails with `backend error`. -/
theorem commandPreRun_init_failure_is_fatal_witness :
    brokenBackendWorld.init
        (freshProc.trace ++ setupEvents New brokenBackendWorld debugStep freshProc.trace)
        debugStep.BackendConfig = some (.leaf "backend error") ∧
      (New.commandPreRun brokenBackendWorld debugStep freshProc).1 =
        some (.errorf "could not init terraform, backend error") :=
  ⟨rfl,
    ((commandPreRun_init_failure_is_fatal New brokenBackendWorld debugStep freshProc).1
      (.leaf "backend error") rfl).1⟩

/-- C9, as stated, fails: for a `LogLevel` that is not empty and holds a NUL
byte, initialization is invoked once, after the change of working directory,
while `TF_LOG` still has the value it had before the call and not the Step's
`LogLevel`. -/
theorem commandPreRun_init_without_TF_LOG :
    nulTraceStep.LogLevel ≠ "" ∧
      (New.commandPreRun scenarioWorld nulTraceStep infoProc).2.trace =
        [.setenv "TF_LOG" nulTraceStep.LogLevel, .chdir "terraform",
         .stdoutLine "Initializing Terraform...", .init nulTraceStep.BackendConfig] ∧
      (New.commandPreRun scenarioWorld nulTraceStep infoProc).2.environ "TF_LOG" =
        some "INFO" ∧
      some "INFO" ≠ some nulTraceStep.LogLevel := by
  decide

/-- C9, amended: one `commandPreRun` makes its calls in this order: the call
`os.Setenv` for `TF_LOG` (when `LogLevel` is not empty), the change of working
directory, the diagnostic lines, the announcement, and the initialization with
the Step's `BackendConfig`; initialization is invoked exactly once, as the last
call, in a state whose history already holds the earlier calls; in that state
`TF_LOG` is the Step's `LogLevel` when `LogLevel` is not empty and holds no NUL
byte, and the environment is the one before the call when `LogLevel` is
empty. -/
theorem commandPreRun_order (m : Mixin) (w : World) (step : Step) (p : Proc) :
    ∃ (p4 : Proc) (lines : List String),
      (m.commandPreRun w step p).2 = (m.Init w p4 step.BackendConfig).2 ∧
      (m.commandPreRun w step p).1 =
        (m.Init w p4 step.BackendConfig).1.map
          (fun err => fmt.Errorf ("could not init terraform, " ++ err.Error)) ∧
      p4.trace =
        p.trace ++ (if step.LogLevel ≠ "" then [.setenv "TF_LOG" step.LogLevel] else []) ++
          [.chdir m.config.WorkingDir] ++ lines.map Event.stderrLine ++
          [.stdoutLine "Initializing Terraform..."] ∧
      (m.commandPreRun w step p).2.trace = p4.trace ++ [.init step.BackendConfig] ∧
      (step.LogLevel ≠ "" → hasNul step.LogLevel = false →
        p4.environ "TF_LOG" = some step.LogLevel) ∧
      (step.LogLevel = "" → p4.environ = p.environ) ∧
      (m.commandPreRun w step p).2.environ = p4.environ ∧
      initCalls p4.trace = initCalls p.trace ∧
      initCalls (m.commandPreRun w step p).2.trace =
        initCalls p.trace ++ [step.BackendConfig] ∧
      chdirTargets p4.trace = chdirTargets p.trace ++ [m.config.WorkingDir] := by
  refine ⟨stateAtInit m w step p,
    debugLines m w (p.trace ++ logLevelEvents step ++ [.chdir m.config.WorkingDir]),
    ?_, ?_, ?_, ?_, ?_, ?_, ?_, ?_, ?_, ?_⟩
  · rw [commandPreRun_eq_init]
  · rw [commandPreRun_eq_init]
  · simp [stateAtInit, setupEvents, logLevelEvents]
  · rw [commandPreRun_trace]
    rfl
  · intro hl hn
    simp [stateAtInit, hl, hn]
  · intro hl
    simp [stateAtInit, hl]
  · rw [commandPreRun_environ]
  · simp only [stateAtInit, setupEvents, logLevelEvents]
    split <;> simp [initCalls_append, initCalls_stderrLines, initCalls]
  · rw [commandPreRun_trace]
    simp only [setupEvents, logLevelEvents]
    split <;> simp [initCalls_append, initCalls_stderrLines, initCalls]
  · simp only [stateAtInit, setupEvents, logLevelEvents]
    split <;> simp [chdirTargets_append, chdirTargets_stderrLines, chdirTargets]

/-- C9, amended, at a concrete input: with the log level `DEBUG`,
initialization is invoked in a state where `TF_LOG` is `DEBUG`. -/
theorem commandPreRun_order_witness :
    debugStep.LogLevel ≠ "" ∧ hasNul debugStep.LogLevel = false ∧
      ∃ p4 : Proc,
        (New.commandPreRun scenarioWorld debugStep freshProc).2 =
          (New.Init scenarioWorld p4 debugStep.BackendConfig).2 ∧
        p4.environ "TF_LOG" = some "DEBUG" :=
  ⟨by decide, by decide,
    let ⟨p4, _, hrun, _, _, _, henv, _⟩ :=
      commandPreRun_order New scenarioWorld debugStep freshProc
    ⟨p4, hrun, henv (by decide) (by decide)⟩⟩

/-- C10: the directory that `commandPreRun` changes into is the mixin's
`config.WorkingDir`, which is `terraform` for the mixin built by `New`,
whatever the Step: two Steps, also with different `WorkingDir`, give the same
single change of directory. -/
theorem commandPreRun_chdir_ignores_step (m : Mixin) (w1 w2 : World) (step1 step2 : Step)
    (p1 p2 : Proc) :
    chdirTargets (m.commandPreRun w1 step1 p1).2.trace =
      chdirTargets p1.trace ++ [m.config.WorkingDir] ∧
    chdirTargets (m.commandPreRun w2 step2 p2).2.trace =
      chdirTargets p2.trace ++ [m.config.WorkingDir] ∧
    chdirTargets (m.commandPreRun w1 step1 p1).2.trace =
      chdirTargets (m.commandPreRun w1 step2 p1).2.trace ∧
    New.config.WorkingDir = "terraform" ∧
    chdirTargets (New.commandPreRun w1 step1 p1).2.trace =
      chdirTargets p1.trace ++ ["terraform"] ∧
    chdirTargets (New.commandPreRun scenarioWorld debugStep freshProc).2.trace =
      ["terraform"] := by
  have key : ∀ (m : Mixin) (w : World) (step : Step) (p : Proc),
      chdirTargets (m.commandPreRun w step p).2.trace =
        chdirTargets p.trace ++ [m.config.WorkingDir] := by
    intro m w step p
    rw [commandPreRun_trace]
    simp only [setupEvents, logLevelEvents]
    split <;> simp [chdirTargets_append, chdirTargets_stderrLines, chdirTargets]
  exact ⟨key m w1 step1 p1, key m w2 step2 p2, by rw [key, key], rfl, key New w1 step1 p1,
    by decide⟩

end Terraform
